import Mathlib

/-!
Verification of the OAuth 3-legged authentication and token-lifecycle
subsystem of the ACC MCP server (`src/auth/`): encrypted token persistence
(`token_store.py`), the local callback listener (`callback_server.py`) and
the OAuth coordinator (`oauth_client.py`).

The Python source is shallowly embedded: pure data flow becomes Lean
functions, external effects (network, clock, the awaited callback) become
explicit environment parameters, and side effects (network requests, file
operations, persisted tokens) become explicit event traces.  Library calls
(`json`, `cryptography.fernet`, `authlib`) are modelled at the level of
their documented contracts; each such model is marked in its doc comment.
-/

namespace AccMcp

/-! ### JSON values

Model of the Python/JSON value domain handled by `json.dumps` / `json.loads`
in `token_store.py`.  Arrays and objects are given by mutually inductive
list types so that mutual induction is available. -/

mutual

inductive Json where
  | null : Json
  | bool (b : Bool) : Json
  | num (n : Int) : Json
  | str (s : String) : Json
  | arr (xs : JsonArr) : Json
  | obj (kvs : JsonObj) : Json
  deriving DecidableEq

inductive JsonArr where
  | nil : JsonArr
  | cons (v : Json) (vs : JsonArr) : JsonArr
  deriving DecidableEq

inductive JsonObj where
  | nil : JsonObj
  | cons (k : String) (v : Json) (kvs : JsonObj) : JsonObj
  deriving DecidableEq

end

/-! ### Serialization: model of `json.dumps(token).encode()` / decode + `json.loads`

`save_token` serializes the token dict to JSON text and UTF-8 bytes;
`get_token` decodes and parses.  The byte stream is modelled as `List Nat`.
The encoding is a tagged, length-prefixed canonical form; what the claims
rely on is that encoding is injective (loads ∘ dumps = id) and that parsing
arbitrary bytes can fail (`json.JSONDecodeError` ⇒ `none`). -/

def encodeChars (cs : List Char) : List Nat :=
  cs.map Char.toNat

mutual

def jsonEncode : Json → List Nat
  | .null => [0]
  | .bool b => [1, cond b 1 0]
  | .num n => [2, if n < 0 then 1 else 0, n.natAbs]
  | .str s => 3 :: s.data.length :: encodeChars s.data
  | .arr xs => 4 :: jsonArrLength xs :: jsonEncodeArr xs
  | .obj kvs => 5 :: jsonObjLength kvs :: jsonEncodeObj kvs

def jsonArrLength : JsonArr → Nat
  | .nil => 0
  | .cons _ vs => jsonArrLength vs + 1

def jsonObjLength : JsonObj → Nat
  | .nil => 0
  | .cons _ _ kvs => jsonObjLength kvs + 1

def jsonEncodeArr : JsonArr → List Nat
  | .nil => []
  | .cons v vs => jsonEncode v ++ jsonEncodeArr vs

def jsonEncodeObj : JsonObj → List Nat
  | .nil => []
  | .cons k v kvs => (k.data.length :: encodeChars k.data) ++ jsonEncode v ++ jsonEncodeObj kvs

end

/-- Decode `n` characters from the front of the stream. -/
def decodeChars : Nat → List Nat → Option (List Char × List Nat)
  | 0, rest => some ([], rest)
  | n + 1, c :: rest =>
    match decodeChars n rest with
    | some (cs, r) => some (Char.ofNat c :: cs, r)
    | none => none
  | _ + 1, [] => none

mutual

def jsonDecodeAux : Nat → List Nat → Option (Json × List Nat)
  | 0, _ => none
  | _ + 1, [] => none
  | fuel + 1, t :: rest =>
    match t with
    | 0 => some (.null, rest)
    | 1 =>
      match rest with
      | b :: r => if b = 0 then some (.bool false, r)
                  else if b = 1 then some (.bool true, r) else none
      | [] => none
    | 2 =>
      match rest with
      | s :: m :: r =>
        if s = 0 then some (.num (Int.ofNat m), r)
        else if s = 1 then some (.num (-(Int.ofNat m)), r) else none
      | _ => none
    | 3 =>
      match rest with
      | n :: r =>
        match decodeChars n r with
        | some (cs, r') => some (.str ⟨cs⟩, r')
        | none => none
      | [] => none
    | 4 =>
      match rest with
      | n :: r =>
        match jsonDecodeArrAux fuel n r with
        | some (vs, r') => some (.arr vs, r')
        | none => none
      | [] => none
    | 5 =>
      match rest with
      | n :: r =>
        match jsonDecodeObjAux fuel n r with
        | some (kvs, r') => some (.obj kvs, r')
        | none => none
      | [] => none
    | _ => none
termination_by fuel input => (fuel, 0)

def jsonDecodeArrAux : Nat → Nat → List Nat → Option (JsonArr × List Nat)
  | _, 0, r => some (.nil, r)
  | fuel, n + 1, r =>
    match jsonDecodeAux fuel r with
    | some (v, r') =>
      match jsonDecodeArrAux fuel n r' with
      | some (vs, r'') => some (.cons v vs, r'')
      | none => none
    | none => none
termination_by fuel n r => (fuel, n + 1)

def jsonDecodeObjAux : Nat → Nat → List Nat → Option (JsonObj × List Nat)
  | _, 0, r => some (.nil, r)
  | fuel, n + 1, r =>
    match r with
    | [] => none
    | kn :: r₀ =>
      match decodeChars kn r₀ with
      | some (kcs, r₁) =>
        match jsonDecodeAux fuel r₁ with
        | some (v, r₂) =>
          match jsonDecodeObjAux fuel n r₂ with
          | some (kvs, r₃) => some (.cons ⟨kcs⟩ v kvs, r₃)
          | none => none
        | none => none
      | none => none
termination_by fuel n r => (fuel, n + 1)

end

mutual

def jsonDepth : Json → Nat
  | .null | .bool _ | .num _ | .str _ => 1
  | .arr xs => jsonArrDepth xs + 1
  | .obj kvs => jsonObjDepth kvs + 1

def jsonArrDepth : JsonArr → Nat
  | .nil => 0
  | .cons v vs => max (jsonDepth v) (jsonArrDepth vs)

def jsonObjDepth : JsonObj → Nat
  | .nil => 0
  | .cons _ v kvs => max (jsonDepth v) (jsonObjDepth kvs)

end

/-- Model of `json.loads` after decryption: parse a byte stream, `none` on
any parse failure (the `json.JSONDecodeError` branch of `get_token`). -/
def jsonDecode (bytes : List Nat) : Option Json :=
  match jsonDecodeAux (bytes.length + 1) bytes with
  | some (v, []) => some v
  | _ => none

theorem decodeChars_encodeChars (cs : List Char) (rest : List Nat) :
    decodeChars cs.length (encodeChars cs ++ rest) = some (cs, rest) := by
  induction cs with
  | nil => simp [decodeChars, encodeChars]
  | cons c cs ih =>
    simp [decodeChars, encodeChars, Char.ofNat_toNat] at ih ⊢
    rw [ih]

theorem jsonDepth_pos (v : Json) : 0 < jsonDepth v := by
  cases v <;> simp [jsonDepth]

mutual

theorem jsonDecodeAux_encode (v : Json) (fuel : Nat) (h : jsonDepth v ≤ fuel)
    (rest : List Nat) :
    jsonDecodeAux fuel (jsonEncode v ++ rest) = some (v, rest) := by
  match v, fuel with
  | v, 0 => exact absurd h (by have := jsonDepth_pos v; omega)
  | .null, fuel + 1 => simp [jsonEncode, jsonDecodeAux]
  | .bool b, fuel + 1 => cases b <;> simp [jsonEncode, jsonDecodeAux]
  | .num n, fuel + 1 =>
    rcases lt_or_le n 0 with hn | hn
    · have hcast : (n.natAbs : Int) = -n := by omega
      simp [jsonEncode, jsonDecodeAux, hn, hcast]
    · have hcast : (n.natAbs : Int) = n := by omega
      simp [jsonEncode, jsonDecodeAux, not_lt.mpr hn, hcast]
  | .str s, fuel + 1 =>
    have hd := decodeChars_encodeChars s.data rest
    simp [jsonEncode, jsonDecodeAux]
    rw [show s.length = s.data.length from rfl, hd]
  | .arr xs, fuel + 1 =>
    have hxs : jsonArrDepth xs ≤ fuel := by
      simp [jsonDepth] at h; omega
    simp [jsonEncode, jsonDecodeAux,
      jsonDecodeArrAux_encode xs fuel hxs rest]
  | .obj kvs, fuel + 1 =>
    have hkvs : jsonObjDepth kvs ≤ fuel := by
      simp [jsonDepth] at h; omega
    simp [jsonEncode, jsonDecodeAux,
      jsonDecodeObjAux_encode kvs fuel hkvs rest]

theorem jsonDecodeArrAux_encode (xs : JsonArr) (fuel : Nat)
    (h : jsonArrDepth xs ≤ fuel) (rest : List Nat) :
    jsonDecodeArrAux fuel (jsonArrLength xs) (jsonEncodeArr xs ++ rest) =
      some (xs, rest) := by
  match xs with
  | .nil => simp [jsonArrLength, jsonEncodeArr, jsonDecodeArrAux]
  | .cons v vs =>
    have hv : jsonDepth v ≤ fuel := by
      simp [jsonArrDepth] at h; omega
    have hvs : jsonArrDepth vs ≤ fuel := by
      simp [jsonArrDepth] at h; omega
    simp [jsonArrLength, jsonEncodeArr, jsonDecodeArrAux, List.append_assoc,
      jsonDecodeAux_encode v fuel hv, jsonDecodeArrAux_encode vs fuel hvs rest]

theorem jsonDecodeObjAux_encode (kvs : JsonObj) (fuel : Nat)
    (h : jsonObjDepth kvs ≤ fuel) (rest : List Nat) :
    jsonDecodeObjAux fuel (jsonObjLength kvs) (jsonEncodeObj kvs ++ rest) =
      some (kvs, rest) := by
  match kvs with
  | .nil => simp [jsonObjLength, jsonEncodeObj, jsonDecodeObjAux]
  | .cons k v rest' =>
    have hv : jsonDepth v ≤ fuel := by
      simp [jsonObjDepth] at h; omega
    have hr : jsonObjDepth rest' ≤ fuel := by
      simp [jsonObjDepth] at h; omega
    have hk := decodeChars_encodeChars k.data
      (jsonEncode v ++ (jsonEncodeObj rest' ++ rest))
    simp [jsonObjLength, jsonEncodeObj, jsonDecodeObjAux, List.append_assoc]
    rw [show k.length = k.data.length from rfl, hk]
    simp [jsonDecodeAux_encode v fuel hv,
      jsonDecodeObjAux_encode rest' fuel hr rest]

end

mutual

theorem jsonDepth_le_length_encode (v : Json) :
    jsonDepth v ≤ (jsonEncode v).length := by
  match v with
  | .null | .bool _ | .num _ => simp [jsonDepth, jsonEncode]
  | .str s => simp [jsonDepth, jsonEncode] <;> omega
  | .arr xs =>
    have := jsonArrDepth_le_length_encode xs
    simp [jsonDepth, jsonEncode] <;> omega
  | .obj kvs =>
    have := jsonObjDepth_le_length_encode kvs
    simp [jsonDepth, jsonEncode] <;> omega

theorem jsonArrDepth_le_length_encode (xs : JsonArr) :
    jsonArrDepth xs ≤ (jsonEncodeArr xs).length := by
  match xs with
  | .nil => simp [jsonArrDepth, jsonEncodeArr]
  | .cons v vs =>
    have h1 := jsonDepth_le_length_encode v
    have h2 := jsonArrDepth_le_length_encode vs
    simp [jsonArrDepth, jsonEncodeArr]; omega

theorem jsonObjDepth_le_length_encode (kvs : JsonObj) :
    jsonObjDepth kvs ≤ (jsonEncodeObj kvs).length := by
  match kvs with
  | .nil => simp [jsonObjDepth, jsonEncodeObj]
  | .cons k v rest =>
    have h1 := jsonDepth_le_length_encode v
    have h2 := jsonObjDepth_le_length_encode rest
    simp [jsonObjDepth, jsonEncodeObj]; omega

end

/-- Parsing inverts serialization: `json.loads` undoes `json.dumps`. -/
theorem jsonDecode_jsonEncode (v : Json) : jsonDecode (jsonEncode v) = some v := by
  have h : jsonDepth v ≤ (jsonEncode v).length + 1 :=
    le_trans (jsonDepth_le_length_encode v) (Nat.le_succ _)
  have := jsonDecodeAux_encode v ((jsonEncode v).length + 1) h []
  simp at this
  simp [jsonDecode, this]

/-! ### Fernet cipher

Model of the `cryptography.fernet.Fernet` symmetric authenticated cipher
used by `TokenStore` (`self._cipher = Fernet(self._key)`).  What the source
relies on, per the library's contract, is exactly: (a) `decrypt ∘ encrypt`
is the identity under the same key, (b) decryption is authenticated —
any tampered ciphertext or wrong key raises `InvalidToken` (modelled as
`none`).  The model realises this with a key tag and redundancy: ciphertext
is the key followed by two copies of the plaintext; decryption checks both. -/

def fernetEncrypt (key : Nat) (m : List Nat) : List Nat :=
  key :: (m ++ m)

def fernetDecrypt (key : Nat) (ct : List Nat) : Option (List Nat) :=
  match ct with
  | [] => none
  | k :: rest =>
    if k = key ∧ rest.length % 2 = 0 ∧
        rest.take (rest.length / 2) = rest.drop (rest.length / 2) then
      some (rest.take (rest.length / 2))
    else none

theorem fernetDecrypt_fernetEncrypt (key : Nat) (m : List Nat) :
    fernetDecrypt key (fernetEncrypt key m) = some m := by
  have hlen : (m ++ m).length = 2 * m.length := by simp; omega
  have htake : (m ++ m).take m.length = m := List.take_left ..
  have hdrop : (m ++ m).drop m.length = m := List.drop_left ..
  simp only [fernetEncrypt, fernetDecrypt, hlen]
  have h2 : 2 * m.length % 2 = 0 := by omega
  have h3 : 2 * m.length / 2 = m.length := by omega
  simp [h2, h3, htake, hdrop]

/-- Decrypting under a different key fails. -/
theorem fernetDecrypt_wrong_key (key key' : Nat) (m : List Nat)
    (h : key' ≠ key) :
    fernetDecrypt key' (fernetEncrypt key m) = none := by
  simp [fernetEncrypt, fernetDecrypt, Ne.symm h]

/-- Authenticated-encryption tamper detection: altering any single byte of a
genuine ciphertext makes decryption fail. -/
theorem fernetDecrypt_set (key : Nat) (m : List Nat) (i : Nat) (b : Nat)
    (hi : i < (fernetEncrypt key m).length)
    (hb : (fernetEncrypt key m).get ⟨i, hi⟩ ≠ b) :
    fernetDecrypt key ((fernetEncrypt key m).set i b) = none := by
  match i with
  | 0 =>
    have hk : key ≠ b := hb
    simp [fernetEncrypt, fernetDecrypt]
    intro hcontra
    exact absurd hcontra.symm hk
  | j + 1 =>
    have hj : j < m.length + m.length := by
      simp [fernetEncrypt] at hi; omega
    have hbj : (m ++ m)[j]? ≠ some b := by
      have hjlt : j < (m ++ m).length := by simp; omega
      rw [List.getElem?_eq_getElem hjlt]
      intro hcontra
      apply hb
      simp only [fernetEncrypt, List.get_eq_getElem] at hb ⊢
      rw [List.getElem_cons_succ]
      simpa using hcontra
    have hset : (fernetEncrypt key m).set (j + 1) b =
        key :: (m ++ m).set j b := by
      simp [fernetEncrypt]
    rw [hset]
    have hlen : ((m ++ m).set j b).length = 2 * m.length := by simp; omega
    have hne : ¬ ((m ++ m).set j b).take m.length =
        ((m ++ m).set j b).drop m.length := by
      intro heq
      rcases lt_or_le j m.length with hlt | hge
      · have h1 : (((m ++ m).set j b).take m.length)[j]? = some b := by
          rw [List.getElem?_take_of_lt hlt,
            List.getElem?_set_eq_of_lt b (by simp; omega)]
        have h2 : (((m ++ m).set j b).drop m.length)[j]? = (m ++ m)[j]? := by
          rw [List.getElem?_drop, List.getElem?_set_ne (by omega)]
          rw [List.getElem?_append_right (by omega),
            List.getElem?_append_left hlt]
          congr 1; omega
        rw [heq, h2] at h1
        exact hbj h1
      · have hn : 0 < m.length := by omega
        have h1 : (((m ++ m).set j b).drop m.length)[j - m.length]? =
            some b := by
          rw [List.getElem?_drop]
          rw [show m.length + (j - m.length) = j by omega]
          exact List.getElem?_set_eq_of_lt b (by simp; omega)
        have h2 : (((m ++ m).set j b).take m.length)[j - m.length]? =
            (m ++ m)[j]? := by
          rw [List.getElem?_take_of_lt (by omega),
            List.getElem?_set_ne (by omega)]
          rw [List.getElem?_append_left (by omega),
            show (m ++ m)[j]? = m[j - m.length]? from by
              rw [List.getElem?_append_right (by omega)]]
        rw [← heq, h2] at h1
        exact hbj h1
    simp [fernetDecrypt, hlen, hne]

/-! ### TokenRecord

The persisted credential unit (spec §3).  In the source the token is the
authlib response `dict` with keys `access_token`, optional `refresh_token`,
`expires_at` (absolute expiry timestamp) and `token_type`. -/

structure TokenRecord where
  access_token : String
  refresh_token : Option String
  expires_at : Int
  token_type : String
  deriving DecidableEq

/-- The JSON object form of a TokenRecord, as `json.dumps` receives it in
`save_token` (the `refresh_token` key is present exactly when the grant
returned one). -/
def recordToJson (r : TokenRecord) : Json :=
  .obj (.cons "access_token" (.str r.access_token)
    (match r.refresh_token with
     | some rt =>
       .cons "refresh_token" (.str rt)
         (.cons "expires_at" (.num r.expires_at)
           (.cons "token_type" (.str r.token_type) .nil))
     | none =>
       .cons "expires_at" (.num r.expires_at)
         (.cons "token_type" (.str r.token_type) .nil)))

def jsonObjLookup : JsonObj → String → Option Json
  | .nil, _ => none
  | .cons k v rest, key => if k = key then some v else jsonObjLookup rest key

/-- Modelled from the spec: the expected TokenRecord schema (spec §3 and
§4.1 "the decrypted content fails to parse as the expected schema").  The
source has no such validator; this definition exists to state schema
validity. -/
def recordOfJson : Json → Option TokenRecord
  | .obj kvs =>
    match jsonObjLookup kvs "access_token", jsonObjLookup kvs "expires_at",
        jsonObjLookup kvs "token_type" with
    | some (.str a), some (.num e), some (.str t) =>
      match jsonObjLookup kvs "refresh_token" with
      | none => some ⟨a, none, e, t⟩
      | some (.str rt) => some ⟨a, some rt, e, t⟩
      | some _ => none
    | _, _, _ => none
  | _ => none

theorem recordOfJson_recordToJson (r : TokenRecord) :
    recordOfJson (recordToJson r) = some r := by
  cases hr : r.refresh_token <;>
    simp +decide [recordToJson, recordOfJson, jsonObjLookup, hr] <;>
    cases r <;> simp_all

/-! ### TokenStore (`token_store.py`)

The store's file is modelled as an `Option (List Nat)` cell (`none` = the
token file does not exist).  `save_token` serializes to JSON, encrypts with
the Fernet cipher under the derived key, and writes the ciphertext;
`get_token` reads, decrypts (catching `InvalidToken` → `none`) and parses
(catching `json.JSONDecodeError` → `none`); `clear_token` deletes the
file. -/

/-- The ciphertext bytes `save_token` writes for a token `dict`. -/
def save_token (key : Nat) (token : Json) : List Nat :=
  fernetEncrypt key (jsonEncode token)

/-- Model of `TokenStore.get_token`: `none` when the file is absent, when decryption
raises `InvalidToken`, or when JSON parsing fails; otherwise the parsed
JSON value. -/
def get_token (key : Nat) (file : Option (List Nat)) : Option Json :=
  match file with
  | none => none
  | some bytes =>
    match fernetDecrypt key bytes with
    | none => none
    | some plain =>
      match jsonDecode plain with
      | none => none
      | some v => some v

/-- Model of `TokenStore.clear_token`: removes the file (idempotent). -/
def clear_token (_file : Option (List Nat)) : Option (List Nat) := none

/-- Claim C4. For every well-formed TokenRecord `r`, `save(r)` followed by
`load()` returns a record equal to `r`: the stored JSON object round-trips
through serialize–encrypt–write–read–decrypt–parse, and it is exactly the
schema-decoding of `r`. -/
theorem save_then_get_roundtrip (key : Nat) (r : TokenRecord) :
    get_token key (some (save_token key (recordToJson r))) =
        some (recordToJson r) ∧
      recordOfJson (recordToJson r) = some r := by
  refine ⟨?_, recordOfJson_recordToJson r⟩
  simp [get_token, save_token, fernetDecrypt_fernetEncrypt,
    jsonDecode_jsonEncode]

/-- Claim C5, counterexample. `get_token` performs no schema validation: a
ciphertext that decrypts to the valid JSON value `5` — which is not a
TokenRecord — is returned as-is rather than yielding `None`. -/
theorem get_token_no_schema_validation :
    get_token 7 (some (fernetEncrypt 7 (jsonEncode (Json.num 5)))) =
        some (Json.num 5) ∧
      recordOfJson (Json.num 5) = none := by
  constructor
  · simp [get_token, fernetDecrypt_fernetEncrypt, jsonDecode_jsonEncode]
  · rfl

/-- Claim C5, amended. `load()` returns `None` when the token file does not
exist, when decryption fails — including for any single corrupted
ciphertext byte — or when the decrypted content fails to parse as JSON;
any successfully decrypted and JSON-parseable value is returned, with no
TokenRecord schema validation. -/
theorem get_token_error_paths (key : Nat) (m : List Nat) (i : Nat) (b : Nat)
    (hi : i < (fernetEncrypt key m).length)
    (hb : (fernetEncrypt key m).get ⟨i, hi⟩ ≠ b) :
    get_token key none = none ∧
      get_token key (some ((fernetEncrypt key m).set i b)) = none ∧
      (∀ ct, fernetDecrypt key ct = none → get_token key (some ct) = none) ∧
      (∀ plain, jsonDecode plain = none →
        get_token key (some (fernetEncrypt key plain)) = none) ∧
      (∀ v : Json, get_token key (some (fernetEncrypt key (jsonEncode v))) =
        some v) := by
  refine ⟨rfl, ?_, ?_, ?_, ?_⟩
  · simp [get_token, fernetDecrypt_set key m i b hi hb]
  · intro ct h; simp [get_token, h]
  · intro plain h; simp [get_token, fernetDecrypt_fernetEncrypt, h]
  · intro v; simp [get_token, fernetDecrypt_fernetEncrypt,
      jsonDecode_jsonEncode]

/-- Witness for C5 (amended): concrete corrupted byte. -/
theorem get_token_error_paths_witness :
    get_token 3 (some ((fernetEncrypt 3 [2, 0, 5]).set 1 9)) = none := by
  have h := get_token_error_paths 3 [2, 0, 5] 1 9 (by decide) (by decide)
  exact h.2.1

/-! ### File-system semantics of `save_token`'s write (claim C6)

`save_token` writes with `open(self.token_path, "wb")` — a truncating
open of the destination itself — followed by `f.write(encrypted_token)`.
The operations are modelled as a trace over a file-system state mapping
paths to contents. -/

inductive FsOp where
  | openTrunc (path : String)
  | writeBytes (path : String) (data : List Nat)
  | rename (src : String) (dst : String)
  deriving DecidableEq

/-- The file operations `save_token` performs on the token path
(`token_store.py` lines 95–96). -/
def save_token_fsOps (tokenPath : String) (ciphertext : List Nat) :
    List FsOp :=
  [.openTrunc tokenPath, .writeBytes tokenPath ciphertext]

def applyFsOp (fs : String → Option (List Nat)) :
    FsOp → String → Option (List Nat)
  | .openTrunc p, q => if q = p then some [] else fs q
  | .writeBytes p d, q => if q = p then some ((fs p).getD [] ++ d) else fs q
  | .rename src dst, q =>
    if q = dst then fs src else if q = src then none else fs q

def replayFs (fs : String → Option (List Nat)) (ops : List FsOp) :
    String → Option (List Nat) :=
  ops.foldl applyFsOp fs

/-- The atomic-replace property claimed by the spec (§5: "a reader should
never observe a partially-written file"): at every intermediate point of
the operation sequence a reader of `path` sees either the old content or
the complete new content.  This definition follows the spec's words, for
comparison against the source's operation trace. -/
def atomicReplaceSemantics (ops : List FsOp) (path : String)
    (oldFs : String → Option (List Nat)) (newContent : List Nat) : Prop :=
  ∀ i, replayFs oldFs (ops.take i) path = oldFs path ∨
    replayFs oldFs (ops.take i) path = some newContent

/-- Claim C6, counterexample. `save_token`'s write is not atomic: with an
existing token file containing `[9]` and new ciphertext `[1, 2]`, a reader
between the truncating open and the write observes an empty file — neither
the old nor the new content.  No temporary file or rename is involved. -/
theorem save_token_write_not_atomic :
    ¬ atomicReplaceSemantics (save_token_fsOps "token.json" [1, 2])
        "token.json"
        (fun q => if q = "token.json" then some [9] else none) [1, 2] := by
  intro h
  have h1 := h 1
  simp [save_token_fsOps, replayFs, applyFsOp] at h1

/-- Claim C6, amended. Every `save_token` call fully replaces the token
file's content with the new ciphertext — but not atomically: the write
goes directly to the token path with no temporary file and no rename, and
immediately after the truncating open a concurrent reader observes an
empty file rather than the old or the new content. -/
theorem save_token_fs_behavior (p : String) (ct : List Nat)
    (oldFs : String → Option (List Nat)) :
    replayFs oldFs (save_token_fsOps p ct) p = some ct ∧
      (∀ s d, FsOp.rename s d ∉ save_token_fsOps p ct) ∧
      replayFs oldFs ((save_token_fsOps p ct).take 1) p = some [] := by
  refine ⟨?_, ?_, ?_⟩
  · simp [save_token_fsOps, replayFs, applyFsOp]
  · intro s d; simp [save_token_fsOps]
  · simp [save_token_fsOps, replayFs, applyFsOp]

/-! ### CallbackServer (`callback_server.py`)

The redirect's query parameters, as parsed by
`parse_qs(urlparse(str(request.url)).query)`, are modelled with one
optional first value per recognized key (`parse_qs` drops blank values, so
an absent or blank parameter is `none`). -/

structure CallbackRequest where
  error : Option String
  error_description : Option String
  code : Option String
  state : Option String

/-- A failure stored in the result future by `set_exception`; each
constructor is one `set_exception` site of `_handle_callback`, carrying
the data embedded in the raised exception's message. -/
inductive CallbackFailure where
  | authorizationDenied (error : String) (description : String)
  | malformedCallback
  deriving DecidableEq

/-- The exception message for each failure (the f-strings of
`_handle_callback`). -/
def CallbackFailure.message : CallbackFailure → String
  | .authorizationDenied e d => "OAuth error: " ++ e ++ " - " ++ d
  | .malformedCallback => "No authorization code received"

inductive HandlerOutcome where
  | failure (f : CallbackFailure)
  | success (code : String) (state : Option String)
  deriving DecidableEq

/-- Model of `CallbackServer._handle_callback`: if an `error` parameter is present,
store an authorization-denied failure carrying the provider's error code
and description (defaulting to "Unknown error"); otherwise, if the `code`
parameter is missing or falsy, store a malformed-callback failure;
otherwise resolve the future with `(code, state)`. -/
def handle_callback (req : CallbackRequest) : HandlerOutcome :=
  match req.error with
  | some e =>
    .failure (.authorizationDenied e
      (req.error_description.getD "Unknown error"))
  | none =>
    match req.code with
    | none => .failure .malformedCallback
    | some c =>
      if c.isEmpty then .failure .malformedCallback
      else .success c req.state

/-- Outcome of `await self.result_future` inside `start()`. -/
inductive WaitOutcome where
  | handled (h : HandlerOutcome)
  | cancelled
  deriving DecidableEq

inductive StartError where
  | raised (f : CallbackFailure)
  | cancelled
  deriving DecidableEq

/-- Externally visible steps of `start()`: binding the socket, consuming
the one redirect the future resolves with, and the two teardown steps of
`_cleanup`. -/
inductive SrvEvent where
  | bindSocket
  | consumeRedirect
  | stopSite
  | cleanupRunner
  deriving DecidableEq

/-- Model of `CallbackServer._cleanup`: `site.stop()` then `runner.cleanup()`. -/
def cleanup : List SrvEvent := [.stopSite, .cleanupRunner]

/-- Semantics of `try`/`finally` on an event-producing body: the final events run on
every exit path. -/
def tryFinallyEvents (body : List SrvEvent) (fin : List SrvEvent) :
    List SrvEvent :=
  body ++ fin

/-- Model of `CallbackServer.start`: set up routes, bind the loopback socket, await
the result future (its outcome is the `WaitOutcome` parameter), and run
`_cleanup` in the `finally` block on every exit path; the awaited pair is
returned, a stored exception or cancellation propagates. -/
def start (w : WaitOutcome) :
    Except StartError (String × Option String) × List SrvEvent :=
  let body : Except StartError (String × Option String) × List SrvEvent :=
    match w with
    | .handled (.success c s) => (.ok (c, s), [.consumeRedirect])
    | .handled (.failure f) => (.error (.raised f), [.consumeRedirect])
    | .cancelled => (.error .cancelled, [])
  (body.1, .bindSocket :: tryFinallyEvents body.2 cleanup)

theorem deniedMessage_ne_malformedMessage (e d : String) :
    (CallbackFailure.authorizationDenied e d).message ≠
      CallbackFailure.malformedCallback.message := by
  intro h
  have h2 := congrArg String.data h
  have h3 : ((CallbackFailure.authorizationDenied e d).message).data =
      'O' :: ("Auth error: " ++ e ++ " - " ++ d).data := rfl
  have h4 : (CallbackFailure.malformedCallback.message).data =
      'N' :: ("o authorization code received" : String).data := rfl
  rw [h3, h4] at h2
  exact absurd (List.head_eq_of_cons_eq h2) (by decide)

theorem deniedMessage_ne_stateMismatch (e d : String) :
    (CallbackFailure.authorizationDenied e d).message ≠
      "State mismatch, possible CSRF attack" := by
  intro h
  have h2 := congrArg String.data h
  have h3 : ((CallbackFailure.authorizationDenied e d).message).data =
      'O' :: ("Auth error: " ++ e ++ " - " ++ d).data := rfl
  have h4 : ("State mismatch, possible CSRF attack" : String).data =
      'S' :: ("tate mismatch, possible CSRF attack" : String).data := rfl
  rw [h3, h4] at h2
  exact absurd (List.head_eq_of_cons_eq h2) (by decide)

/-- Claim C7. A callback carrying an `error` parameter makes the awaited
`start()` result fail with the authorization-denied condition carrying the
provider's error code and description (no code/state pair is returned); a
callback with no error and no `code` fails with the malformed-callback
condition; and the two failures are distinguishable from each other and
from the state-mismatch condition, both structurally and by message. -/
theorem callback_error_taxonomy (req : CallbackRequest) (e : String) :
    (req.error = some e →
      (start (.handled (handle_callback req))).1 =
        .error (.raised (.authorizationDenied e
          (req.error_description.getD "Unknown error")))) ∧
      (req.error = none → req.code = none →
        (start (.handled (handle_callback req))).1 =
          .error (.raised .malformedCallback)) ∧
      (∀ e' d', CallbackFailure.authorizationDenied e' d' ≠
        CallbackFailure.malformedCallback) ∧
      (∀ e' d', (CallbackFailure.authorizationDenied e' d').message ≠
        CallbackFailure.malformedCallback.message) ∧
      (∀ e' d', (CallbackFailure.authorizationDenied e' d').message ≠
        "State mismatch, possible CSRF attack") ∧
      CallbackFailure.malformedCallback.message ≠
        "State mismatch, possible CSRF attack" := by
  refine ⟨?_, ?_, ?_, deniedMessage_ne_malformedMessage,
    deniedMessage_ne_stateMismatch, by decide⟩
  · intro he; simp [handle_callback, he, start, tryFinallyEvents]
  · intro he hc; simp [handle_callback, he, hc, start, tryFinallyEvents]
  · intro e' d'; simp

/-- Witness for C7: concrete denied and malformed callbacks. -/
theorem callback_error_taxonomy_witness :
    (start (.handled (handle_callback
        ⟨some "access_denied", some "User declined", none, none⟩))).1 =
      .error (.raised (.authorizationDenied "access_denied"
        "User declined")) ∧
      (start (.handled (handle_callback ⟨none, none, none, none⟩))).1 =
        .error (.raised .malformedCallback) := by
  constructor
  · exact (callback_error_taxonomy
      ⟨some "access_denied", some "User declined", none, none⟩
      "access_denied").1 rfl
  · exact ((callback_error_taxonomy ⟨none, none, none, none⟩ "").2.1) rfl rfl

/-- Claim C8. On every exit path of `start()` — the awaited result resolving
successfully, failing with an error, or the wait being cancelled — both
teardown steps run (the site is stopped and the runner cleaned up,
releasing the bound socket), and exactly one redirect is consumed when the
future resolves or fails (never more than one). -/
theorem start_teardown_unconditional (w : WaitOutcome) :
    SrvEvent.stopSite ∈ (start w).2 ∧
      SrvEvent.cleanupRunner ∈ (start w).2 ∧
      (start w).2.count SrvEvent.consumeRedirect ≤ 1 ∧
      (∀ h, w = .handled h →
        (start w).2.count SrvEvent.consumeRedirect = 1) := by
  match w with
  | .handled (.success c s) =>
    refine ⟨?_, ?_, ?_, ?_⟩ <;>
      simp [start, tryFinallyEvents, cleanup, List.count_cons]
  | .handled (.failure f) =>
    refine ⟨?_, ?_, ?_, ?_⟩ <;>
      simp [start, tryFinallyEvents, cleanup, List.count_cons]
  | .cancelled =>
    refine ⟨?_, ?_, ?_, ?_⟩ <;>
      simp [start, tryFinallyEvents, cleanup, List.count_cons]

/-- Witness for C8: teardown and single consumed redirect on a concrete
successful wait. -/
theorem start_teardown_unconditional_witness :
    SrvEvent.stopSite ∈ (start (.handled (.success "abc123" none))).2 ∧
      (start (.handled (.success "abc123" none))).2.count
        SrvEvent.consumeRedirect = 1 :=
  ⟨(start_teardown_unconditional (.handled (.success "abc123" none))).1,
    (start_teardown_unconditional
      (.handled (.success "abc123" none))).2.2.2 _ rfl⟩

/-! ### OAuthClient (`oauth_client.py`)

`ensure_token` and `_authenticate` are embedded as functions of an
environment supplying the externally determined outcomes (stored token,
current time, refresh response, callback wait, exchange response), and
produce the returned value together with the trace of outward actions. -/

/-- Outward actions of the coordinator: opening the browser on the
authorization URL, the refresh-token grant request, the code-for-token
exchange request, and persisting a token through the store. -/
inductive NetEvent where
  | openBrowser
  | refreshRequest (refreshToken : String)
  | tokenExchange (code : String) (codeVerifier : String)
  | persistToken (r : TokenRecord)
  deriving DecidableEq

/-- Failures surfaced by `_authenticate`, one constructor per raise site:
the `ValueError` of the state check, an exception re-raised from the
awaited callback future, a failed token-endpoint request, and
cancellation. -/
inductive AuthError where
  | securityViolation (msg : String)
  | callbackFailure (f : CallbackFailure)
  | tokenExchangeFailed (msg : String)
  | cancelled
  deriving DecidableEq

/-- The transient PKCE instance fields `self._code_verifier` and
`self._state`. -/
structure PkceFields where
  code_verifier : Option String
  state : Option String
  deriving DecidableEq

/-- External outcomes of one full authorization attempt:
`create_s256_code_verifier()`, `secrets.token_urlsafe(32)`, the awaited
callback, and the token endpoint's answer to the exchange request. -/
structure AuthEnv where
  generatedVerifier : String
  generatedState : String
  callbackWait : WaitOutcome
  exchangeOutcome : Except String TokenRecord

structure AuthResult where
  result : Except AuthError TokenRecord
  events : List NetEvent
  pkce : PkceFields

/-- The `try` body of `_authenticate`: await the callback, verify the
returned `state` against the generated one (`state != self._state` — a
mismatch, including a missing state, raises before any exchange), exchange
the code supplying the original code verifier, and persist the token. -/
def authenticateBody (env : AuthEnv) :
    Except AuthError TokenRecord × List NetEvent :=
  match env.callbackWait with
  | .cancelled => (.error .cancelled, [])
  | .handled (.failure f) => (.error (.callbackFailure f), [])
  | .handled (.success code cbState) =>
    if cbState ≠ some env.generatedState then
      (.error (.securityViolation "State mismatch, possible CSRF attack"),
        [])
    else
      match env.exchangeOutcome with
      | .error m => (.error (.tokenExchangeFailed m),
          [.tokenExchange code env.generatedVerifier])
      | .ok tok => (.ok tok,
          [.tokenExchange code env.generatedVerifier, .persistToken tok])

/-- The `finally` block of `_authenticate`: discard the PKCE state. -/
def authenticateFinally (_p : PkceFields) : PkceFields :=
  { code_verifier := none, state := none }

/-- Model of `OAuthClient._authenticate`: generate the PKCE pair and state nonce,
store them in the instance fields, open the browser, run the `try` body,
and clear the fields in `finally` on every exit path. -/
def authenticate (env : AuthEnv) : AuthResult :=
  let pkce0 : PkceFields :=
    { code_verifier := some env.generatedVerifier
      state := some env.generatedState }
  let body := authenticateBody env
  { result := body.1
    events := .openBrowser :: body.2
    pkce := authenticateFinally pkce0 }

/-- Modelled from the authlib library contract used by
`_is_token_expired` (`self._session.token_expired(token)`): the record's
absolute `expires_at` is compared against the current time plus a leeway
safety margin (authlib's default leeway is 60 seconds). -/
def leeway : Int := 60

def is_token_expired (t : TokenRecord) (now : Int) : Bool :=
  decide (t.expires_at < now + leeway)

/-- External outcomes of one `ensure_token` call: the parsed stored token
(`token_store.get_token()`), the clock, the refresh endpoint's answer, and
the full-authorization environment. -/
structure EnsureEnv where
  storedToken : Option TokenRecord
  now : Int
  refreshOutcome : Except String TokenRecord
  auth : AuthEnv

/-- Model of `OAuthClient.ensure_token`: return the cached token when present and
not expired; else, when a refresh token is present, attempt the refresh
grant (persisting and returning on success) and on ANY refresh failure
fall through, like when no usable token exists, to `_authenticate`. -/
def ensure_token (env : EnsureEnv) : Except AuthError String × List NetEvent :=
  match env.storedToken with
  | some t =>
    if is_token_expired t env.now then
      match t.refresh_token with
      | some rt =>
        match env.refreshOutcome with
        | .ok newTok =>
          (.ok newTok.access_token,
            [.refreshRequest rt, .persistToken newTok])
        | .error _ =>
          let a := authenticate env.auth
          (a.result.map (fun tok => tok.access_token),
            .refreshRequest rt :: a.events)
      | none =>
        let a := authenticate env.auth
        (a.result.map (fun tok => tok.access_token), a.events)
    else
      (.ok t.access_token, [])
  | none =>
    let a := authenticate env.auth
    (a.result.map (fun tok => tok.access_token), a.events)

/-- On a state mismatch the attempt fails with the security-violation
error before any token-exchange request is issued. -/
theorem authenticate_state_mismatch (env : AuthEnv) (code : String)
    (cbState : Option String)
    (hw : env.callbackWait = .handled (.success code cbState))
    (hne : cbState ≠ some env.generatedState) :
    (authenticate env).result =
        .error (.securityViolation "State mismatch, possible CSRF attack") ∧
      ∀ c v, NetEvent.tokenExchange c v ∉ (authenticate env).events := by
  constructor
  · simp [authenticate, authenticateBody, hw, hne]
  · intro c v
    simp [authenticate, authenticateBody, hw, hne]

/-- Claim C1. For every authorization attempt in which the callback returns
a state different from the generated nonce, the attempt fails with the
security-violation condition and the token-exchange endpoint is never
called. -/
theorem state_mismatch_no_exchange (env : AuthEnv) (code : String)
    (cbState : Option String)
    (hw : env.callbackWait = .handled (.success code cbState))
    (hne : cbState ≠ some env.generatedState) :
    (authenticate env).result =
        .error (.securityViolation "State mismatch, possible CSRF attack") ∧
      ∀ c v, NetEvent.tokenExchange c v ∉ (authenticate env).events :=
  authenticate_state_mismatch env code cbState hw hne

/-- Witness for C1: a concrete attempt whose callback carries the wrong
state. -/
theorem state_mismatch_no_exchange_witness :
    (authenticate ⟨"ver", "good", .handled (.success "abc" (some "evil")),
        .error "unused"⟩).result =
      .error (.securityViolation "State mismatch, possible CSRF attack") :=
  (state_mismatch_no_exchange
    ⟨"ver", "good", .handled (.success "abc" (some "evil")), .error "unused"⟩
    "abc" (some "evil") rfl (by decide)).1

/-- Claim C2. For every stored TokenRecord whose `expires_at` lies in the
future beyond the safety margin, `ensure_token` returns that record's
`access_token` with an empty outward trace: no refresh request, no
browser/authorization flow, no token-exchange request. -/
theorem cached_token_no_network (env : EnsureEnv) (t : TokenRecord)
    (ht : env.storedToken = some t)
    (hfresh : env.now + leeway ≤ t.expires_at) :
    ensure_token env = (.ok t.access_token, []) := by
  have hexp : is_token_expired t env.now = false := by
    simp [is_token_expired]; omega
  simp [ensure_token, ht, hexp]

/-- Witness for C2: a concrete fresh token is returned from cache. -/
theorem cached_token_no_network_witness :
    ensure_token ⟨some ⟨"tok_xyz", none, 1000, "Bearer"⟩, 0, .error "unused",
        ⟨"v", "s", .cancelled, .error "unused"⟩⟩ =
      (.ok "tok_xyz", []) :=
  cached_token_no_network
    ⟨some ⟨"tok_xyz", none, 1000, "Bearer"⟩, 0, .error "unused",
      ⟨"v", "s", .cancelled, .error "unused"⟩⟩
    ⟨"tok_xyz", none, 1000, "Bearer"⟩ rfl (by decide)

/-- Claim C3. Whenever the refresh grant is attempted and fails — whatever
the error — `ensure_token` does not raise that failure: its result and
remaining trace are exactly those of the full authorization flow, which
runs next (the browser is opened). -/
theorem refresh_failure_falls_through (env : EnsureEnv) (t : TokenRecord)
    (rt : String) (msg : String)
    (ht : env.storedToken = some t)
    (hexp : is_token_expired t env.now = true)
    (hrt : t.refresh_token = some rt)
    (hfail : env.refreshOutcome = .error msg) :
    (ensure_token env).1 =
        (authenticate env.auth).result.map (fun tok => tok.access_token) ∧
      (ensure_token env).2 =
        .refreshRequest rt :: (authenticate env.auth).events ∧
      NetEvent.openBrowser ∈ (ensure_token env).2 := by
  refine ⟨?_, ?_, ?_⟩ <;>
    simp [ensure_token, ht, hexp, hrt, hfail, authenticate]

/-- Witness for C3: a concrete expired token whose refresh fails falls
through to the (cancelled) full flow instead of raising the refresh
error. -/
theorem refresh_failure_falls_through_witness :
    (ensure_token ⟨some ⟨"old", some "rtok", 0, "Bearer"⟩, 100,
        .error "invalid_grant", ⟨"v", "s", .cancelled, .error "u"⟩⟩).2 =
      .refreshRequest "rtok" ::
        (authenticate ⟨"v", "s", .cancelled, .error "u"⟩).events :=
  (refresh_failure_falls_through
    ⟨some ⟨"old", some "rtok", 0, "Bearer"⟩, 100, .error "invalid_grant",
      ⟨"v", "s", .cancelled, .error "u"⟩⟩
    ⟨"old", some "rtok", 0, "Bearer"⟩ "rtok" "invalid_grant"
    rfl (by decide) rfl rfl).2.1

/-- Claim C9. After every full authorization attempt concludes — success,
any failure, or cancellation — the coordinator's AuthorizationState (the
code verifier and the state nonce) is discarded: both instance fields end
cleared, so no attempt's verifier or state survives into a later
attempt. -/
theorem authorization_state_discarded (env : AuthEnv) :
    (authenticate env).pkce.code_verifier = none ∧
      (authenticate env).pkce.state = none := by
  simp [authenticate, authenticateFinally]

/-- Claim C10. A callback carrying a `code` but no `state` resolves
`start()` successfully with `(code, none)` — the listener checks nothing
about `state` — and the coordinator's equality check then fails with the
security violation, since `none` never equals the generated state
string. -/
theorem missing_state_resolves_then_fails (req : CallbackRequest)
    (c : String) (g : String)
    (herr : req.error = none) (hcode : req.code = some c)
    (hc : ¬ c.isEmpty) (hstate : req.state = none) :
    handle_callback req = .success c none ∧
      (start (.handled (handle_callback req))).1 = .ok (c, none) ∧
      (none : Option String) ≠ some g ∧
      ∀ env : AuthEnv, env.callbackWait = .handled (.success c none) →
        (authenticate env).result =
          .error (.securityViolation
            "State mismatch, possible CSRF attack") := by
  have hh : handle_callback req = .success c none := by
    simp [handle_callback, herr, hcode, hc, hstate]
  refine ⟨hh, ?_, by simp, ?_⟩
  · simp [hh, start, tryFinallyEvents]
  · intro env hw
    exact (authenticate_state_mismatch env c none hw (by simp)).1

/-- Witness for C10: the concrete callback `?code=abc123` with no state
parameter. -/
theorem missing_state_resolves_then_fails_witness :
    handle_callback ⟨none, none, some "abc123", none⟩ =
        .success "abc123" none ∧
      (authenticate ⟨"v", "xyz",
          .handled (.success "abc123" none), .error "u"⟩).result =
        .error (.securityViolation "State mismatch, possible CSRF attack") := by
  have h := missing_state_resolves_then_fails
    ⟨none, none, some "abc123", none⟩ "abc123" "xyz"
    rfl rfl (by decide) rfl
  exact ⟨h.1, h.2.2.2 ⟨"v", "xyz", .handled (.success "abc123" none),
    .error "u"⟩ rfl⟩

end AccMcp
